import Mathlib

/-!
Shallow embedding of the durable storage layer (`src/disk.py`) and the fetch
engine (`src/main.py`) of the crawler, together with theorems settling the
specification claims about them.

Modelling conventions for the SQLite-backed structures:

* A table is a Lean list of row structures, kept in rowid (`id`) order — the
  physical scan order SQLite uses for these tables, so an unordered
  `SELECT ... LIMIT n` is `List.take n` and `SELECT ... ORDER BY id LIMIT 1`
  is the head of an id-sorted list.
* `INTEGER PRIMARY KEY` rowid assignment is `max existing id + 1` (SQLite's
  rule for tables without `AUTOINCREMENT`), so a fresh row's id is strictly
  larger than every id currently in the table.
* `INSERT OR IGNORE` ignores a row exactly when it would violate a uniqueness
  constraint.  The `elements` table of `diskset` declares
  `element TEXT PRIMARY KEY`, so there the insert is suppressed when the
  element is already present.  The `queue` tables of `pagequeue` and
  `diskqueue` declare only the auto-assigned `id INTEGER PRIMARY KEY` and no
  uniqueness constraint on `page` or on `(slug, hash)`; an auto-assigned
  rowid never collides, so for the queues `INSERT OR IGNORE` behaves as a
  plain `INSERT` and duplicates are stored.
* Python's cached `self.length` counters are modelled as `Int` (they may
  drift below the true count, e.g. `diskset.remove` of an absent element).
* Exceptions (`KeyError` from a failed mapping lookup, network errors,
  `KeyboardInterrupt`) are modelled with `Except`/`Option` result types.
-/

namespace Spotify

/-! ### diskset — src/disk.py lines 7-50

Table `elements (element TEXT PRIMARY KEY)`; rows listed in storage order.
-/

structure diskset where
  elements : List String
  length : Int
  deriving Repr, DecidableEq

/-- `INSERT OR IGNORE INTO elements (element) VALUES (?)`: the primary key on
`element` suppresses the insert when the element is already stored. -/
def insertOrIgnore (rows : List String) (e : String) : List String :=
  if e ∈ rows then rows else rows ++ [e]

/-- `SELECT COUNT(*) FROM elements` (src/disk.py:45-47). -/
def diskset.size (d : diskset) : Nat :=
  d.elements.length

/-- `diskset.__init__` (src/disk.py:8-16): connect to the file holding the
given rows and seed the cached length with `self.size()`. -/
def diskset.openFile (stored : List String) : diskset :=
  ⟨stored, stored.length⟩

/-- `diskset.__contains__` (src/disk.py:21-23). -/
def diskset.mem (d : diskset) (e : String) : Bool :=
  d.elements.contains e

/-- `diskset.add` (src/disk.py:29-32): `INSERT OR IGNORE`, then
`self.length += 1` unconditionally. -/
def diskset.add (d : diskset) (e : String) : diskset :=
  ⟨insertOrIgnore d.elements e, d.length + 1⟩

/-- `diskset.extend` (src/disk.py:34-38): one transaction of
`INSERT OR IGNORE` per element, then `self.length += len(elements)`. -/
def diskset.extend (d : diskset) (es : List String) : diskset :=
  ⟨es.foldl insertOrIgnore d.elements, d.length + es.length⟩

/-- `diskset.remove` (src/disk.py:40-43): `DELETE ... WHERE element = ?`,
then `self.length -= 1` unconditionally. -/
def diskset.remove (d : diskset) (e : String) : diskset :=
  ⟨d.elements.filter (fun x => decide (x ≠ e)), d.length - 1⟩

/-! ### pagequeue — src/disk.py lines 52-211

Table `queue (id INTEGER PRIMARY KEY, page TEXT)`; rows listed in id order.
-/

structure PageRow where
  id : Nat
  page : String
  deriving Repr, DecidableEq

structure pagequeue where
  rows : List PageRow
  length : Int
  deriving Repr, DecidableEq

/-- Largest rowid currently in the table (0 when empty); SQLite assigns
`maxId + 1` to the next inserted row. -/
def maxId (rows : List PageRow) : Nat :=
  rows.foldl (fun m r => max m r.id) 0

/-- One `INSERT INTO queue (page) VALUES (?)` (src/disk.py:164; also each
row of the `INSERT OR IGNORE` executemany at line 199, where the absence of
a uniqueness constraint on `page` makes `OR IGNORE` vacuous). -/
def insertRow (rows : List PageRow) (page : String) : List PageRow :=
  rows ++ [⟨maxId rows + 1, page⟩]

/-- `queue.__init__` (src/disk.py:53-58): cached length seeded from
`self.size()`. -/
def pagequeue.openFile (stored : List PageRow) : pagequeue :=
  ⟨stored, stored.length⟩

/-- `SELECT COUNT(*) FROM queue` (src/disk.py:87-92). -/
def pagequeue.size (q : pagequeue) : Nat :=
  q.rows.length

/-- `queue.put` via `pagequeue.insert` (src/disk.py:105-115, 163-166). -/
def pagequeue.put (q : pagequeue) (page : String) : pagequeue :=
  ⟨insertRow q.rows page, q.length + 1⟩

/-- `pagequeue.extend` (src/disk.py:188-201): early return on empty input,
otherwise insert every item (`OR IGNORE` is vacuous, see the header comment)
and add `len(batch)` to the cached length. -/
def pagequeue.extend (q : pagequeue) (items : List String) : pagequeue :=
  if items.isEmpty then q
  else ⟨items.foldl insertRow q.rows, q.length + items.length⟩

/-- `pagequeue.sample` (src/disk.py:168-171):
`SELECT id, page FROM queue ORDER BY id LIMIT 1`. -/
def pagequeue.sample (q : pagequeue) : Option PageRow :=
  q.rows.head?

/-- `DELETE FROM queue WHERE id = ?` (src/disk.py:117-120). -/
def deleteId (rows : List PageRow) (i : Nat) : List PageRow :=
  rows.filter (fun r => decide (r.id ≠ i))

/-- `queue.get` (src/disk.py:122-146) for the page queue.  The outer
`Option` is termination of the busy-retry loop: on an empty queue with
`block = true` the loop re-samples forever (`none`); otherwise one pass
returns.  The inner pair is (returned value, queue state after the call);
a sampled row `(id, page)` has length 2, so `item[1]`, the page, is
returned. -/
def pagequeue.get (q : pagequeue) (block delete : Bool) :
    Option (Option String × pagequeue) :=
  match q.sample with
  | none => if block then none else some (none, q)
  | some r =>
      some (some r.page,
        if delete then ⟨deleteId q.rows r.id, q.length - 1⟩ else q)

/-- `pagequeue.get_batch` (src/disk.py:173-186): scan the first
`batch_size` rows, collect their pages into a set, delete every row whose
page is in that set, subtract the set's size from the cached length, and
return the set. -/
def pagequeue.get_batch (q : pagequeue) (batch_size : Nat) :
    List String × pagequeue :=
  let ids := ((q.rows.take batch_size).map (fun r => r.page)).dedup
  (ids,
    ⟨q.rows.filter (fun r => decide (r.page ∉ ids)), q.length - ids.length⟩)

/-- `pagequeue.__iter__` (src/disk.py:203-211): pages in id order, without
removal. -/
def pagequeue.toList (q : pagequeue) : List String :=
  q.rows.map (fun r => r.page)

/-! ### diskqueue — src/disk.py lines 213-300

Table `queue (id INTEGER PRIMARY KEY, slug INTEGER, hash TEXT)`; rows listed
in id order.  SQLite columns are dynamically typed: the `slug` column holds
whatever Python value was bound — an `int` code on the `insert` (put) path,
the caller's unencoded value on the `extend` path (in `src/main.py` a
category-name string).  `SlugVal` records which of the two was stored; a
stored string never compares equal to an integer key of
`INVERSE_SLUG_MAPPING`, so decoding a `raw` value is a `KeyError`. -/

inductive SlugVal where
  | code (n : Nat)
  | raw (s : String)
  deriving Repr, DecidableEq

structure EntityRow where
  id : Nat
  slug : SlugVal
  hash : String
  deriving Repr, DecidableEq

/-- `diskqueue.SLUG_MAPPING` (src/disk.py:214-224). -/
def SLUG_MAPPING : List (String × Nat) :=
  [("track", 0), ("album", 1), ("artist", 2), ("playlist", 3),
   ("concert", 4), ("user", 5), ("episode", 6), ("show", 7), ("genre", 8)]

/-- `diskqueue.INVERSE_SLUG_MAPPING` (src/disk.py:226). -/
def INVERSE_SLUG_MAPPING : List (Nat × String) :=
  SLUG_MAPPING.map (fun p => (p.2, p.1))

structure diskqueue where
  rows : List EntityRow
  length : Int
  deriving Repr, DecidableEq

/-- Largest rowid currently in the entity table (0 when empty). -/
def emaxId (rows : List EntityRow) : Nat :=
  rows.foldl (fun m r => max m r.id) 0

/-- `queue.__init__` for the entity queue (src/disk.py:53-58). -/
def diskqueue.openFile (stored : List EntityRow) : diskqueue :=
  ⟨stored, stored.length⟩

/-- `SELECT COUNT(*) FROM queue` (src/disk.py:87-92). -/
def diskqueue.size (q : diskqueue) : Nat :=
  q.rows.length

/-- `queue.put` via `diskqueue.insert` (src/disk.py:105-115, 239-244):
`slug = self.SLUG_MAPPING[slug]` raises `KeyError` for an unknown category
name (the transaction is rolled back and the error propagates); otherwise
the integer code is stored. -/
def diskqueue.put (q : diskqueue) (item : String × String) :
    Except Unit diskqueue :=
  match SLUG_MAPPING.lookup item.1 with
  | none => .error ()
  | some c =>
      .ok ⟨q.rows ++ [⟨emaxId q.rows + 1, .code c, item.2⟩], q.length + 1⟩

/-- One row of the `INSERT OR IGNORE INTO queue (slug, hash)` executemany in
`diskqueue.extend` (src/disk.py:288): the item is stored as given, with no
translation through `SLUG_MAPPING`, and `OR IGNORE` is vacuous (no
uniqueness constraint on `(slug, hash)`). -/
def einsertRow (rows : List EntityRow) (item : String × String) :
    List EntityRow :=
  rows ++ [⟨emaxId rows + 1, .raw item.1, item.2⟩]

/-- `diskqueue.extend` (src/disk.py:277-290): early return on empty input,
otherwise insert every item unencoded and add `len(items)` to the cached
length. -/
def diskqueue.extend (q : diskqueue) (items : List (String × String)) :
    diskqueue :=
  if items.isEmpty then q
  else ⟨items.foldl einsertRow q.rows, q.length + items.length⟩

/-- `self.INVERSE_SLUG_MAPPING[slug]` (src/disk.py:251): defined only for an
integer code that is a key of the inverse mapping; a `raw` stored value is
never such a key, so the lookup is a `KeyError` (`none`). -/
def decodeSlug : SlugVal → Option String
  | .code n => INVERSE_SLUG_MAPPING.lookup n
  | .raw _ => none

/-- `diskqueue.sample` (src/disk.py:246-254): read the minimum-id row and
translate its stored slug back through `INVERSE_SLUG_MAPPING`; the failed
dictionary lookup on an untranslatable value is a `KeyError`. -/
def diskqueue.sample (q : diskqueue) :
    Except Unit (Option (Nat × String × String)) :=
  match q.rows.head? with
  | none => .ok none
  | some r =>
      match decodeSlug r.slug with
      | none => .error ()
      | some name => .ok (some (r.id, name, r.hash))

/-- `DELETE FROM queue WHERE id = ?` (src/disk.py:117-120). -/
def edeleteId (rows : List EntityRow) (i : Nat) : List EntityRow :=
  rows.filter (fun r => decide (r.id ≠ i))

/-- `queue.get` (src/disk.py:122-146) for the entity queue.  The outer
`Option` is termination of the busy-retry loop (as for `pagequeue.get`);
the `Except` is the uncaught `KeyError` re-raised by the
`except Exception` handler after the rollback.  A sampled item
`(id, slug, hash)` has length 3, so `item[1:]`, the pair
(category name, hash), is returned. -/
def diskqueue.get (q : diskqueue) (block delete : Bool) :
    Option (Except Unit (Option (String × String) × diskqueue)) :=
  match q.rows.head? with
  | none => if block then none else some (.ok (none, q))
  | some r =>
      some (match decodeSlug r.slug with
        | none => .error ()
        | some name =>
            .ok (some (name, r.hash),
              if delete then ⟨edeleteId q.rows r.id, q.length - 1⟩ else q))

/-- `diskqueue.get_batch` (src/disk.py:256-275): scan the first
`batch_size` rows; collect their row ids into a set and their slugs and
hashes into parallel lists — the slug translation is commented out in the
source (line 268), so the stored slug values are returned untouched; delete
by row id; subtract the number of distinct scanned ids from the cached
length. -/
def diskqueue.get_batch (q : diskqueue) (batch_size : Nat) :
    (List SlugVal × List String) × diskqueue :=
  let scanned := q.rows.take batch_size
  let ids := (scanned.map (fun r => r.id)).dedup
  ((scanned.map (fun r => r.slug), scanned.map (fun r => r.hash)),
    ⟨q.rows.filter (fun r => decide (r.id ∉ ids)), q.length - ids.length⟩)

/-- `diskqueue.__iter__` (src/disk.py:292-300): yields the stored
`(slug, hash)` pairs in id order, untranslated, without removal. -/
def diskqueue.toList (q : diskqueue) : List (SlugVal × String) :=
  q.rows.map (fun r => (r.slug, r.hash))

/-! ### Fetch engine — src/main.py lines 14-90

The regular-expression extraction inside the `code == 200` branch of
`process` (src/main.py:31-45) is abstracted as the per-page outcome
`Extraction`: either the computed `(pages, results)` value — with the
derived `slug + '/' + id` pages already folded into `pages` — or an
exception raised during extraction, which is either an ordinary `Exception`
or a `KeyboardInterrupt`.  A fetch of a URL yields a `FetchOutcome`: an HTTP
response with a status code and that page's extraction outcome, a
transport-layer exception, or an operator interrupt while awaiting the
response. -/

inductive Extraction where
  | ok (pages : List String) (entities : List (String × String))
  | fail
  | interrupt
  deriving Repr, DecidableEq

inductive FetchOutcome where
  | response (code : Nat) (ext : Extraction)
  | netfail
  | interrupted
  deriving Repr, DecidableEq

/-- `domain` (src/main.py:14). -/
def domain : String :=
  "https://open.spotify.com/"

/-- `status_messages` (src/main.py:20). -/
def status_messages : List (Nat × String) :=
  [(429, "Too many requests"), (500, "Internal Server Error"),
   (503, "Service unavailable"), (504, "Gateway timeout")]

/-- Observable effects and return value of one `process` call: the lines it
prints, the number of `time.sleep(0.1)` pauses it performs, and its Python
return value (`None` is `none`). -/
structure ProcessOut where
  logs : List String
  sleeps : Nat
  result : Option (List String × List (String × String))
  deriving Repr, DecidableEq

/-- `process` (src/main.py:28-57).  On status 200 the extraction runs: a
value is returned, an ordinary exception is caught, logged and turned into
the present-but-empty `(set(), dict())`, a `KeyboardInterrupt` is re-raised
(`Except.error`).  On a transient status the message is printed, the code
sleeps 0.1 s, and the function falls through returning `None`.  On any
other status the failure is logged and the present-but-empty pair is
returned. -/
def process (url : String) (code : Nat) (ext : Extraction) :
    Except Unit ProcessOut :=
  if code = 200 then
    match ext with
    | .ok pages entities => .ok ⟨[], 0, some (pages, entities)⟩
    | .fail => .ok ⟨["Error while scraping " ++ url], 0, some ([], [])⟩
    | .interrupt => .error ()
  else
    match status_messages.lookup code with
    | some message =>
        .ok ⟨[message ++ " when accessing " ++ url ++
              ". Retrying in 0.1 seconds..."], 1, none⟩
    | none =>
        .ok ⟨["Failed to access " ++ url ++ ". Status code: " ++
              toString code], 0, some ([], [])⟩

/-- How awaiting one task can fail in `scrape`: an ordinary exception
(re-raised by `raise e` at src/main.py:85) or an operator interrupt (never
caught). -/
inductive ScrapeError where
  | exn
  | interrupt
  deriving Repr, DecidableEq

/-- `request` (src/main.py:59-63): build the absolute URL and fetch it; a
transport-layer exception or an interrupt propagates, otherwise the
response is handed to `process` (whose re-raised `KeyboardInterrupt` also
propagates). -/
def request (fetch : String → FetchOutcome) (page : String) :
    Except ScrapeError ProcessOut :=
  match fetch (domain ++ page) with
  | .netfail => .error .exn
  | .interrupted => .error .interrupt
  | .response code ext =>
      match process (domain ++ page) code ext with
      | .error _ => .error .interrupt
      | .ok out => .ok out

/-- The task list built in `scrape` (src/main.py:69-73): exactly one
request task per input page; nothing in `scrape` ever creates a second task
for a page. -/
def scrape_tasks (pages : List String) : List String :=
  pages

/-- `scrape` (src/main.py:65-90): await every task, re-raising any
exception (which aborts the whole batch), and collect the non-`None`
`process` return values.  `asyncio.as_completed` yields results in
completion order; the model uses task-list order — which outputs are kept
and whether the batch aborts do not depend on the order. -/
def scrape (fetch : String → FetchOutcome) :
    List String → Except ScrapeError (List (List String × List (String × String)))
  | [] => .ok []
  | p :: rest =>
      match request fetch p with
      | .error e => .error e
      | .ok out =>
          match scrape fetch rest with
          | .error e => .error e
          | .ok outs =>
              .ok (match out.result with
                   | none => outs
                   | some v => v :: outs)

/-- The aggregation loop of the FETCH phase (src/main.py:117-125):
`all_pages` is the concatenation of every output's pages and `all_results`
the concatenation of every output's entity pairs. -/
def aggregate (outs : List (List String × List (String × String))) :
    List String × List (String × String) :=
  (outs.foldr (fun o acc => o.1 ++ acc) [],
   outs.foldr (fun o acc => o.2 ++ acc) [])

/-! ### Operation sequences and reopening

Every mutating operation above commits before returning, so the state it
leaves behind is what the storage file holds.  `close` (src/disk.py:49-50,
148-150) only closes the connection; reopening binds a fresh instance to
the stored rows and seeds the cached length from `size()`
(src/disk.py:16, 58).  The `Op` types below enumerate the completed
mutating calls a client can make between open and close. -/

inductive SetOp where
  | add (e : String)
  | extend (es : List String)
  | remove (e : String)
  deriving Repr, DecidableEq

def diskset.apply (d : diskset) : SetOp → diskset
  | .add e => d.add e
  | .extend es => d.extend es
  | .remove e => d.remove e

def diskset.run (d : diskset) (ops : List SetOp) : diskset :=
  ops.foldl diskset.apply d

/-- Close the connection and open a new `diskset` on the same file. -/
def diskset.reopen (d : diskset) : diskset :=
  diskset.openFile d.elements

inductive PQOp where
  | put (p : String)
  | extend (ps : List String)
  | get (delete : Bool)
  | get_batch (n : Nat)
  deriving Repr, DecidableEq

/-- State left behind by one completed page-queue call (`get` is the
non-blocking variant, which always returns in one pass). -/
def pagequeue.apply (q : pagequeue) : PQOp → pagequeue
  | .put p => q.put p
  | .extend ps => q.extend ps
  | .get d =>
      match q.get false d with
      | some (_, q2) => q2
      | none => q
  | .get_batch n => (q.get_batch n).2

def pagequeue.run (q : pagequeue) (ops : List PQOp) : pagequeue :=
  ops.foldl pagequeue.apply q

/-- Close the connection and open a new `pagequeue` on the same file. -/
def pagequeue.reopen (q : pagequeue) : pagequeue :=
  pagequeue.openFile q.rows

inductive DQOp where
  | put (item : String × String)
  | extend (items : List (String × String))
  | get (delete : Bool)
  | get_batch (n : Nat)
  deriving Repr, DecidableEq

/-- State left behind by one entity-queue call; `put` and `get` can raise
(`KeyError`), in which case the transaction was rolled back and the
sequence is not a sequence of completed operations. -/
def diskqueue.apply (q : diskqueue) : DQOp → Except Unit diskqueue
  | .put item => q.put item
  | .extend items => .ok (q.extend items)
  | .get d =>
      match q.get false d with
      | some (.ok (_, q2)) => .ok q2
      | some (.error e) => .error e
      | none => .ok q
  | .get_batch n => .ok (q.get_batch n).2

def diskqueue.run (q : diskqueue) (ops : List DQOp) : Except Unit diskqueue :=
  ops.foldlM diskqueue.apply q

/-- Close the connection and open a new `diskqueue` on the same file. -/
def diskqueue.reopen (q : diskqueue) : diskqueue :=
  diskqueue.openFile q.rows

/-! ### Helper lemmas -/

theorem length_foldl_insertRow (items : List String) (rows : List PageRow) :
    (items.foldl insertRow rows).length = rows.length + items.length := by
  induction items generalizing rows with
  | nil => simp
  | cons a as ih =>
      simp only [List.foldl_cons, ih, insertRow, List.length_append,
        List.length_cons, List.length_nil]
      omega

theorem map_page_foldl_insertRow (items : List String) (rows : List PageRow) :
    (items.foldl insertRow rows).map PageRow.page
      = rows.map PageRow.page ++ items := by
  induction items generalizing rows with
  | nil => simp
  | cons a as ih => simp [insertRow, ih]

theorem length_foldl_einsertRow (items : List (String × String))
    (rows : List EntityRow) :
    (items.foldl einsertRow rows).length = rows.length + items.length := by
  induction items generalizing rows with
  | nil => simp
  | cons a as ih =>
      simp only [List.foldl_cons, ih, einsertRow, List.length_append,
        List.length_cons, List.length_nil]
      omega

theorem map_slug_foldl_einsertRow (items : List (String × String))
    (rows : List EntityRow) :
    (items.foldl einsertRow rows).map EntityRow.slug
      = rows.map EntityRow.slug ++ items.map (fun it => SlugVal.raw it.1) := by
  induction items generalizing rows with
  | nil => simp
  | cons a as ih => simp [einsertRow, ih]

theorem mem_insertOrIgnore {rows : List String} {e x : String} :
    x ∈ insertOrIgnore rows e ↔ x ∈ rows ∨ x = e := by
  unfold insertOrIgnore
  split
  · rename_i he
    constructor
    · exact Or.inl
    · rintro (hx | rfl)
      · exact hx
      · exact he
  · simp

theorem nodup_insertOrIgnore {rows : List String} (h : rows.Nodup)
    (e : String) : (insertOrIgnore rows e).Nodup := by
  unfold insertOrIgnore
  split
  · exact h
  · rename_i he
    simp [List.nodup_append, h, he]

theorem mem_foldl_insertOrIgnore (es : List String) (rows : List String)
    (x : String) :
    x ∈ es.foldl insertOrIgnore rows ↔ x ∈ rows ∨ x ∈ es := by
  induction es generalizing rows with
  | nil => simp
  | cons a as ih =>
      simp only [List.foldl_cons, ih, mem_insertOrIgnore, List.mem_cons]
      tauto

theorem nodup_foldl_insertOrIgnore (es : List String) {rows : List String}
    (h : rows.Nodup) : (es.foldl insertOrIgnore rows).Nodup := by
  induction es generalizing rows with
  | nil => exact h
  | cons a as ih => exact ih (nodup_insertOrIgnore h a)

theorem chain_head_le {α : Type} (f : α → Nat) :
    ∀ {r : α} {rest : List α},
      List.Chain' (fun a b => f a < f b) (r :: rest) →
      ∀ x ∈ r :: rest, f r ≤ f x := by
  intro r rest
  induction rest generalizing r with
  | nil =>
      intro _ x hx
      rcases List.mem_cons.mp hx with rfl | hx
      · exact Nat.le_refl _
      · exact absurd hx (List.not_mem_nil x)
  | cons a as ih =>
      intro h x hx
      have hra : f r < f a := (List.chain'_cons.mp h).1
      have hrest := (List.chain'_cons.mp h).2
      rcases List.mem_cons.mp hx with rfl | hx
      · exact Nat.le_refl _
      · exact Nat.le_trans (Nat.le_of_lt hra) (ih hrest x hx)

theorem chain_head_lt {α : Type} (f : α → Nat) :
    ∀ {r : α} {rest : List α},
      List.Chain' (fun a b => f a < f b) (r :: rest) →
      ∀ x ∈ rest, f r < f x := by
  intro r rest
  induction rest generalizing r with
  | nil =>
      intro _ x hx
      exact absurd hx (List.not_mem_nil x)
  | cons a as ih =>
      intro h x hx
      have hra : f r < f a := (List.chain'_cons.mp h).1
      have hrest := (List.chain'_cons.mp h).2
      rcases List.mem_cons.mp hx with rfl | hx
      · exact hra
      · exact Nat.lt_trans hra (ih hrest x hx)

theorem deleteId_cons_head {r : PageRow} {rest : List PageRow}
    (h : ∀ x ∈ rest, r.id < x.id) : deleteId (r :: rest) r.id = rest := by
  unfold deleteId
  rw [List.filter_cons_of_neg (by simp), List.filter_eq_self.mpr]
  intro x hx
  simpa using Nat.ne_of_gt (h x hx)

theorem edeleteId_cons_head {r : EntityRow} {rest : List EntityRow}
    (h : ∀ x ∈ rest, r.id < x.id) : edeleteId (r :: rest) r.id = rest := by
  unfold edeleteId
  rw [List.filter_cons_of_neg (by simp), List.filter_eq_self.mpr]
  intro x hx
  simpa using Nat.ne_of_gt (h x hx)

theorem lookup_mem {l : List (String × Nat)} {k : String} {v : Nat}
    (h : l.lookup k = some v) : (k, v) ∈ l := by
  induction l with
  | nil => simp [List.lookup] at h
  | cons p rest ih =>
      obtain ⟨a, b⟩ := p
      rw [List.lookup] at h
      split at h
      · rename_i hk
        obtain rfl : b = v := Option.some.inj h
        obtain rfl : k = a := by simpa using hk
        exact List.mem_cons_self _ _
      · exact List.mem_cons_of_mem _ (ih h)

/-- The nine-entry category mapping is injective, so a successful forward
lookup determines a successful inverse lookup. -/
theorem slug_lookup_inverse {name : String} {c : Nat}
    (h : SLUG_MAPPING.lookup name = some c) :
    INVERSE_SLUG_MAPPING.lookup c = some name := by
  have hm : (name, c) ∈ SLUG_MAPPING := lookup_mem h
  have hall : ∀ p ∈ SLUG_MAPPING,
      INVERSE_SLUG_MAPPING.lookup p.2 = some p.1 := by decide
  exact hall (name, c) hm

/-! ### Claim C1 -/

/-- C1 counterexample: the claim says `put`/`extend` never insert an
additional stored row for an item already present, i.e. after any sequence
of such calls the page list of the stored rows has no duplicates.  On the
empty Page Queue, `put "a"` followed by `put "a"` stores two rows whose
page is `"a"`: the `queue` table has no uniqueness constraint on `page`,
so nothing suppresses the second insert. -/
theorem C1_counterexample :
    ¬ ((((pagequeue.openFile []).put "a").put "a").rows.map
        PageRow.page).Nodup := by
  decide

/-- C1 (amended): on both queues `put` always inserts one fresh row —
the Page Queue's plain `INSERT`, and the Entity Queue's `insert`
(disk.py:239-244), which appends the encoded row whenever the category
name is in the mapping — and `extend` inserts one fresh row per input
element, whether or not an equal item is already stored: the queue tables
declare no uniqueness constraint on the payload, so `INSERT OR IGNORE`
never suppresses anything, and after a sequence of `put`/`extend` calls
the storage may hold several rows for the same item. -/
theorem C1_every_insert_adds_a_row (q : pagequeue) (p : String)
    (items : List String) (e : diskqueue) (eitems : List (String × String))
    (ename ehash : String) (c : Nat)
    (hc : SLUG_MAPPING.lookup ename = some c) :
    ((q.put p).rows.length = q.rows.length + 1) ∧
    ((q.extend items).rows.length = q.rows.length + items.length) ∧
    ((q.extend items).rows.map PageRow.page
        = q.rows.map PageRow.page ++ items) ∧
    ((e.extend eitems).rows.length = e.rows.length + eitems.length) ∧
    (e.put (ename, ehash)
        = .ok ⟨e.rows ++ [⟨emaxId e.rows + 1, .code c, ehash⟩],
               e.length + 1⟩) ∧
    (∀ e2, e.put (ename, ehash) = .ok e2 →
        e2.rows.length = e.rows.length + 1) := by
  have hput : e.put (ename, ehash)
      = .ok ⟨e.rows ++ [⟨emaxId e.rows + 1, .code c, ehash⟩],
             e.length + 1⟩ := by
    simp [diskqueue.put, hc]
  refine ⟨by simp [pagequeue.put, insertRow], ?_, ?_, ?_, hput, ?_⟩
  · unfold pagequeue.extend
    split
    · rename_i h
      rw [List.isEmpty_iff.mp h]
      simp
    · exact length_foldl_insertRow items q.rows
  · unfold pagequeue.extend
    split
    · rename_i h
      rw [List.isEmpty_iff.mp h]
      simp
    · exact map_page_foldl_insertRow items q.rows
  · unfold diskqueue.extend
    split
    · rename_i h
      rw [List.isEmpty_iff.mp h]
      simp
    · exact length_foldl_einsertRow eitems e.rows
  · intro e2 h2
    rw [hput] at h2
    obtain rfl := Except.ok.inj h2
    simp

/-- C1 witness: both `put` paths at concrete queues already holding the
inserted item — the row count still grows by one. -/
theorem C1_witness :
    (((pagequeue.openFile [⟨1, "a"⟩]).put "a").rows.length
        = (pagequeue.openFile [⟨1, "a"⟩]).rows.length + 1) ∧
    ((diskqueue.openFile [⟨1, .code 0, "h"⟩]).put ("track", "h")
        = .ok ⟨(diskqueue.openFile [⟨1, .code 0, "h"⟩]).rows ++
            [⟨emaxId (diskqueue.openFile [⟨1, .code 0, "h"⟩]).rows + 1,
              .code 0, "h"⟩],
            (diskqueue.openFile [⟨1, .code 0, "h"⟩]).length + 1⟩) :=
  ⟨(C1_every_insert_adds_a_row (pagequeue.openFile [⟨1, "a"⟩]) "a" ["a"]
      (diskqueue.openFile [⟨1, .code 0, "h"⟩]) [("track", "h")]
      "track" "h" 0 rfl).1,
   (C1_every_insert_adds_a_row (pagequeue.openFile [⟨1, "a"⟩]) "a" ["a"]
      (diskqueue.openFile [⟨1, .code 0, "h"⟩]) [("track", "h")]
      "track" "h" 0 rfl).2.2.2.2.1⟩

/-! ### Claim C2 -/

/-- C2: on a Durable Set, `extend` stores only the distinct new elements —
the stored rows stay duplicate-free and the stored set is the union of the
old elements and the input — while the cached length grows by the full
input count unconditionally; on the empty set, `extend ["a","a","b"]`
stores exactly `["a","b"]` while the cached length reports 3; and `add`
grows the cached length by one unconditionally. -/
theorem C2_diskset_extend_semantics (d : diskset)
    (hd : d.elements.Nodup) (es : List String) (e : String) :
    ((d.extend es).elements.Nodup) ∧
    (∀ x, x ∈ (d.extend es).elements ↔ x ∈ d.elements ∨ x ∈ es) ∧
    ((d.extend es).length = d.length + es.length) ∧
    ((d.add e).length = d.length + 1) ∧
    (((diskset.openFile []).extend ["a", "a", "b"]).elements = ["a", "b"]) ∧
    (((diskset.openFile []).extend ["a", "a", "b"]).length = 3) :=
  ⟨nodup_foldl_insertOrIgnore es hd,
   fun x => mem_foldl_insertOrIgnore es d.elements x,
   rfl, rfl, by decide, by decide⟩

/-- C2 witness: the theorem applied to the set holding `["x"]`. -/
theorem C2_witness :
    (((diskset.openFile ["x"]).extend ["x", "y"]).elements.Nodup) ∧
    (∀ z, z ∈ ((diskset.openFile ["x"]).extend ["x", "y"]).elements ↔
        z ∈ (diskset.openFile ["x"]).elements ∨ z ∈ ["x", "y"]) ∧
    (((diskset.openFile ["x"]).extend ["x", "y"]).length
        = (diskset.openFile ["x"]).length + (["x", "y"] : List String).length) ∧
    (((diskset.openFile ["x"]).add "x").length
        = (diskset.openFile ["x"]).length + 1) ∧
    (((diskset.openFile []).extend ["a", "a", "b"]).elements = ["a", "b"]) ∧
    (((diskset.openFile []).extend ["a", "a", "b"]).length = 3) :=
  C2_diskset_extend_semantics (diskset.openFile ["x"]) (by decide)
    ["x", "y"] "x"

/-! ### Claim C3 -/

/-- C3 counterexample: the claim says every insertion path of the Entity
Queue stores the category as its integer code, so enqueueing
`("track", "h")` via `extend` would store `SLUG_MAPPING["track"] = 0` in
the slug column.  It stores the unencoded value `"track"` instead:
`diskqueue.extend` binds the items as given, without the lookup that
`insert` performs. -/
theorem C3_counterexample :
    (((diskqueue.openFile []).extend [("track", "h")]).rows.map
        EntityRow.slug = [SlugVal.raw "track"]) ∧
    ([SlugVal.raw "track"] ≠ [SlugVal.code 0]) :=
  ⟨rfl, by decide⟩

/-- C3 (amended): only `insert` (the `put` path) maps the category name to
its integer code before storing, and only `sample` (the `get` path) maps a
stored code back to the name; `extend` stores the category value
unencoded, and `get_batch` and iteration return the stored slug values
untranslated (the translation in `get_batch` is commented out in the
source). -/
theorem C3_translation_boundaries (q : diskqueue) (name hash : String)
    (c : Nat) (q2 : diskqueue) (i : Nat) (h2 : String)
    (rest : List EntityRow) (items : List (String × String)) (n : Nat)
    (hc : SLUG_MAPPING.lookup name = some c)
    (hq2 : q2.rows = ⟨i, .code c, h2⟩ :: rest) :
    (q.put (name, hash)
        = .ok ⟨q.rows ++ [⟨emaxId q.rows + 1, .code c, hash⟩],
               q.length + 1⟩) ∧
    (q2.sample = .ok (some (i, name, h2))) ∧
    ((q.extend items).rows.map EntityRow.slug
        = q.rows.map EntityRow.slug ++ items.map (fun it => SlugVal.raw it.1)) ∧
    ((q.get_batch n).1.1 = (q.rows.take n).map EntityRow.slug) ∧
    (q.toList = q.rows.map (fun r => (r.slug, r.hash))) := by
  refine ⟨?_, ?_, ?_, rfl, rfl⟩
  · simp [diskqueue.put, hc]
  · simp [diskqueue.sample, hq2, decodeSlug, slug_lookup_inverse hc]
  · unfold diskqueue.extend
    split
    · rename_i h
      rw [List.isEmpty_iff.mp h]
      simp
    · exact map_slug_foldl_einsertRow items q.rows

/-- C3 witness: `sample` translates the stored code 0 back to `"track"`. -/
theorem C3_witness :
    (diskqueue.openFile [⟨1, .code 0, "k"⟩]).sample
        = .ok (some (1, "track", "k")) :=
  (C3_translation_boundaries (diskqueue.openFile []) "track" "hh" 0
      (diskqueue.openFile [⟨1, .code 0, "k"⟩]) 1 "k" [] [] 0 rfl rfl).2.1

/-! ### Claim C4 -/

/-- C4 counterexample: the claim promises that `get` on any non-empty
Durable Queue returns the oldest item's payload.  On the Entity Queue
holding the single item `("track", "h")` enqueued via `extend`, `get`
raises an uncaught `KeyError` instead of returning: the stored slug is the
unencoded string, which is not a key of `INVERSE_SLUG_MAPPING`. -/
theorem C4_counterexample :
    (((diskqueue.openFile []).extend [("track", "h")]).rows ≠ []) ∧
    (((diskqueue.openFile []).extend [("track", "h")]).get false true
        = some (.error ())) :=
  ⟨by decide, rfl⟩

/-- C4 (amended): on a non-empty Page Queue whose rows are in id order,
`get(block, delete=true)` returns the page of the row with the smallest
insertion-order id and removes exactly that row; the same holds on the
Entity Queue provided the oldest row's slug is a stored integer code of
the mapping (as the `put` path stores it), the payload being the decoded
(name, hash) pair; on an empty queue with `block=false`, `get` returns
immediately with no value and leaves the queue unchanged. -/
theorem C4_get_oldest (q : pagequeue) (r : PageRow) (rest : List PageRow)
    (block : Bool) (e : diskqueue) (er : EntityRow)
    (erest : List EntityRow) (c : Nat) (name : String) (qe : pagequeue)
    (ee : diskqueue) (delete : Bool)
    (hq : q.rows = r :: rest)
    (hsort : List.Chain' (fun a b => a.id < b.id) q.rows)
    (he : e.rows = er :: erest)
    (hesort : List.Chain' (fun a b => a.id < b.id) e.rows)
    (hslug : er.slug = .code c)
    (hname : SLUG_MAPPING.lookup name = some c)
    (hqe : qe.rows = []) (hee : ee.rows = []) :
    (q.get block true = some (some r.page, ⟨rest, q.length - 1⟩)) ∧
    (∀ x ∈ q.rows, r.id ≤ x.id) ∧
    (e.get block true
        = some (.ok (some (name, er.hash), ⟨erest, e.length - 1⟩))) ∧
    (∀ x ∈ e.rows, er.id ≤ x.id) ∧
    (qe.get false delete = some (none, qe)) ∧
    (ee.get false delete = some (.ok (none, ee))) := by
  rw [hq] at hsort
  rw [he] at hesort
  refine ⟨?_, ?_, ?_, ?_, ?_, ?_⟩
  · have hdel : deleteId (r :: rest) r.id = rest :=
      deleteId_cons_head (chain_head_lt PageRow.id hsort)
    simp [pagequeue.get, pagequeue.sample, hq, hdel]
  · rw [hq]
    exact chain_head_le PageRow.id hsort
  · have hdel : edeleteId (er :: erest) er.id = erest :=
      edeleteId_cons_head (chain_head_lt EntityRow.id hesort)
    simp [diskqueue.get, he, hslug, decodeSlug, slug_lookup_inverse hname,
      hdel]
  · rw [he]
    exact chain_head_le EntityRow.id hesort
  · simp [pagequeue.get, pagequeue.sample, hqe]
  · simp [diskqueue.get, hee]

/-- C4 witness: the theorem applied to concrete two-page and one-entity
queues and to the empty queues. -/
theorem C4_witness :
    ((pagequeue.openFile [⟨1, "a"⟩, ⟨2, "b"⟩]).get true true
        = some (some "a",
            ⟨[⟨2, "b"⟩], (pagequeue.openFile [⟨1, "a"⟩, ⟨2, "b"⟩]).length - 1⟩)) ∧
    ((diskqueue.openFile [⟨1, .code 0, "h"⟩]).get true true
        = some (.ok (some ("track", "h"),
            ⟨[], (diskqueue.openFile [⟨1, .code 0, "h"⟩]).length - 1⟩))) ∧
    ((pagequeue.openFile []).get false false = some (none, pagequeue.openFile [])) :=
  ⟨(C4_get_oldest (pagequeue.openFile [⟨1, "a"⟩, ⟨2, "b"⟩]) ⟨1, "a"⟩
      [⟨2, "b"⟩] true (diskqueue.openFile [⟨1, .code 0, "h"⟩])
      ⟨1, .code 0, "h"⟩ [] 0 "track" (pagequeue.openFile [])
      (diskqueue.openFile []) false rfl
      (by simp [pagequeue.openFile, List.chain'_cons]) rfl
      (by simp [diskqueue.openFile]) rfl rfl rfl rfl).1,
   (C4_get_oldest (pagequeue.openFile [⟨1, "a"⟩, ⟨2, "b"⟩]) ⟨1, "a"⟩
      [⟨2, "b"⟩] true (diskqueue.openFile [⟨1, .code 0, "h"⟩])
      ⟨1, .code 0, "h"⟩ [] 0 "track" (pagequeue.openFile [])
      (diskqueue.openFile []) false rfl
      (by simp [pagequeue.openFile, List.chain'_cons]) rfl
      (by simp [diskqueue.openFile]) rfl rfl rfl rfl).2.2.1,
   (C4_get_oldest (pagequeue.openFile [⟨1, "a"⟩, ⟨2, "b"⟩]) ⟨1, "a"⟩
      [⟨2, "b"⟩] true (diskqueue.openFile [⟨1, .code 0, "h"⟩])
      ⟨1, .code 0, "h"⟩ [] 0 "track" (pagequeue.openFile [])
      (diskqueue.openFile []) false rfl
      (by simp [pagequeue.openFile, List.chain'_cons]) rfl
      (by simp [diskqueue.openFile]) rfl rfl rfl rfl).2.2.2.2.1⟩

/-! ### Claim C5 -/

/-- C5: `get_batch n` on a queue holding fewer than `n` stored items
returns exactly the available items' payloads — for the Page Queue the set
of the stored pages, for the Entity Queue the parallel lists of all stored
slugs and hashes — and leaves zero stored rows behind. -/
theorem C5_get_batch_drains (q : pagequeue) (e : diskqueue) (n : Nat)
    (hq : q.rows.length < n) (he : e.rows.length < n) :
    (∀ x, x ∈ (q.get_batch n).1 ↔ x ∈ q.rows.map PageRow.page) ∧
    ((q.get_batch n).2.rows = []) ∧
    ((e.get_batch n).1.1 = e.rows.map EntityRow.slug) ∧
    ((e.get_batch n).1.2 = e.rows.map EntityRow.hash) ∧
    ((e.get_batch n).2.rows = []) := by
  have htq : q.rows.take n = q.rows :=
    List.take_of_length_le (Nat.le_of_lt hq)
  have hte : e.rows.take n = e.rows :=
    List.take_of_length_le (Nat.le_of_lt he)
  refine ⟨?_, ?_, ?_, ?_, ?_⟩
  · intro x
    simp [pagequeue.get_batch, htq, List.mem_dedup]
  · apply List.filter_eq_nil_iff.mpr
    intro r hr
    simp only [pagequeue.get_batch, htq, decide_eq_true_eq, not_not]
    exact List.mem_dedup.mpr (List.mem_map_of_mem PageRow.page hr)
  · simp [diskqueue.get_batch, hte]
  · simp [diskqueue.get_batch, hte]
  · apply List.filter_eq_nil_iff.mpr
    intro r hr
    simp only [diskqueue.get_batch, hte, decide_eq_true_eq, not_not]
    exact List.mem_dedup.mpr (List.mem_map_of_mem EntityRow.id hr)

/-- C5 witness: the theorem applied to one-row queues drained with
`n = 2`. -/
theorem C5_witness :
    (∀ x, x ∈ ((pagequeue.openFile [⟨1, "a"⟩]).get_batch 2).1 ↔
        x ∈ (pagequeue.openFile [⟨1, "a"⟩]).rows.map PageRow.page) ∧
    (((pagequeue.openFile [⟨1, "a"⟩]).get_batch 2).2.rows = []) ∧
    (((diskqueue.openFile [⟨1, .code 0, "h"⟩]).get_batch 2).1.1
        = (diskqueue.openFile [⟨1, .code 0, "h"⟩]).rows.map EntityRow.slug) ∧
    (((diskqueue.openFile [⟨1, .code 0, "h"⟩]).get_batch 2).1.2
        = (diskqueue.openFile [⟨1, .code 0, "h"⟩]).rows.map EntityRow.hash) ∧
    (((diskqueue.openFile [⟨1, .code 0, "h"⟩]).get_batch 2).2.rows = []) :=
  C5_get_batch_drains (pagequeue.openFile [⟨1, "a"⟩])
    (diskqueue.openFile [⟨1, .code 0, "h"⟩]) 2 (by decide) (by decide)

/-! ### Claim C6 -/

/-- C6: `get_batch n` on the Page Queue scans the first `n` stored rows,
returns the distinct page identifiers among them, and removes exactly the
rows carrying a returned identifier — duplicates of a returned identifier
anywhere in the table are deleted with it, every row whose identifier was
not returned survives, and the cached length drops by the number of
distinct identifiers returned. -/
theorem C6_get_batch_removes_distinct (q : pagequeue) (n : Nat) :
    ((q.get_batch n).1 = ((q.rows.take n).map PageRow.page).dedup) ∧
    (∀ r ∈ (q.get_batch n).2.rows, r.page ∉ (q.get_batch n).1) ∧
    (∀ r ∈ q.rows, r.page ∉ (q.get_batch n).1 → r ∈ (q.get_batch n).2.rows) ∧
    ((q.get_batch n).2.length = q.length - ((q.get_batch n).1.length)) := by
  refine ⟨rfl, ?_, ?_, rfl⟩
  · intro r hr
    exact of_decide_eq_true (List.mem_filter.mp hr).2
  · intro r hr hnot
    exact List.mem_filter.mpr ⟨hr, decide_eq_true hnot⟩

/-! ### Claim C7 -/

/-- C7: after any sequence of completed mutating operations, closing the
instance and reopening one against the same storage file yields an
instance whose stored elements/rows are exactly those that survived at
close time and whose `size()` — which also seeds the reopened cached
length — equals the surviving row count.  (Closing only closes the
connection; every mutating operation above committed its transaction
before returning, so the file holds exactly the in-model rows.) -/
theorem C7_reopen_roundtrip (d : diskset) (ops : List SetOp)
    (q : pagequeue) (qops : List PQOp) (e0 : diskqueue)
    (eops : List DQOp) (e1 : diskqueue)
    (hrun : e0.run eops = .ok e1) :
    ((d.run ops).reopen.elements = (d.run ops).elements) ∧
    ((d.run ops).reopen.size = (d.run ops).elements.length) ∧
    ((d.run ops).reopen.length = ((d.run ops).size : Int)) ∧
    ((q.run qops).reopen.rows = (q.run qops).rows) ∧
    ((q.run qops).reopen.size = (q.run qops).rows.length) ∧
    ((q.run qops).reopen.length = ((q.run qops).size : Int)) ∧
    (e1.reopen.rows = e1.rows) ∧
    (e1.reopen.size = e1.rows.length) ∧
    (e1.reopen.length = (e1.size : Int)) :=
  ⟨rfl, rfl, rfl, rfl, rfl, rfl, rfl, rfl, rfl⟩

/-- C7 witness: the theorem applied to concrete operation sequences,
including a completed entity-queue run that enqueues one item and drains
it. -/
theorem C7_witness :
    (((diskset.openFile []).run
        [.extend ["a", "a", "b"], .add "c", .remove "a"]).reopen.elements
      = ((diskset.openFile []).run
        [.extend ["a", "a", "b"], .add "c", .remove "a"]).elements) ∧
    (((pagequeue.openFile []).run
        [.put "a", .extend ["a", "b"], .get true, .get_batch 1]).reopen.length
      = (((pagequeue.openFile []).run
        [.put "a", .extend ["a", "b"], .get true, .get_batch 1]).size : Int)) ∧
    ((diskqueue.mk [] 0).reopen.rows = (diskqueue.mk [] 0).rows) :=
  ⟨(C7_reopen_roundtrip (diskset.openFile [])
      [.extend ["a", "a", "b"], .add "c", .remove "a"]
      (pagequeue.openFile [])
      [.put "a", .extend ["a", "b"], .get true, .get_batch 1]
      (diskqueue.openFile []) [.extend [("track", "h")], .get_batch 1]
      (diskqueue.mk [] 0) rfl).1,
   (C7_reopen_roundtrip (diskset.openFile [])
      [.extend ["a", "a", "b"], .add "c", .remove "a"]
      (pagequeue.openFile [])
      [.put "a", .extend ["a", "b"], .get true, .get_batch 1]
      (diskqueue.openFile []) [.extend [("track", "h")], .get_batch 1]
      (diskqueue.mk [] 0) rfl).2.2.2.2.2.1,
   (C7_reopen_roundtrip (diskset.openFile [])
      [.extend ["a", "a", "b"], .add "c", .remove "a"]
      (pagequeue.openFile [])
      [.put "a", .extend ["a", "b"], .get true, .get_batch 1]
      (diskqueue.openFile []) [.extend [("track", "h")], .get_batch 1]
      (diskqueue.mk [] 0) rfl).2.2.2.2.2.2.1⟩

/-- Reduction of `request` once the fetch outcome of the page is known to
be an HTTP response. -/
theorem request_eq_of_response (fetch : String → FetchOutcome)
    (page : String) (code : Nat) (ext : Extraction)
    (h : fetch (domain ++ page) = .response code ext) :
    request fetch page
      = match process (domain ++ page) code ext with
        | .error _ => .error .interrupt
        | .ok out => .ok out := by
  unfold request
  rw [h]

/-! ### Claim C8 -/

/-- C8: a fetched page with transient status 429, 500, 503 or 504 logs the
matching condition message and pauses once (0.1 s); its `process` return
value is `None`, so `scrape` drops it from the batch output — the batch
result is exactly that of the remaining pages — and the task list holds a
single request for the page, so it is not resubmitted within the same
batch call. -/
theorem C8_transient_result_absent (fetch : String → FetchOutcome)
    (p0 : String) (rest : List String) (code : Nat) (ext : Extraction)
    (hf : fetch (domain ++ p0) = .response code ext)
    (hcode : code = 429 ∨ code = 500 ∨ code = 503 ∨ code = 504) :
    (∃ message, status_messages.lookup code = some message ∧
        process (domain ++ p0) code ext
          = .ok ⟨[message ++ " when accessing " ++ (domain ++ p0) ++
                  ". Retrying in 0.1 seconds..."], 1, none⟩) ∧
    (scrape fetch (p0 :: rest) = scrape fetch rest) ∧
    (scrape_tasks (p0 :: rest) = p0 :: scrape_tasks rest) := by
  rcases hcode with rfl | rfl | rfl | rfl <;>
  · refine ⟨⟨_, rfl, rfl⟩, ?_, rfl⟩
    have hreq := request_eq_of_response fetch p0 _ ext hf
    simp only [scrape]
    rw [hreq]
    cases hscr : scrape fetch rest <;> rfl

/-- C8 witness: the theorem applied to a concrete 429 response. -/
theorem C8_witness :
    (∃ message, status_messages.lookup 429 = some message ∧
        process (domain ++ "x") 429 .fail
          = .ok ⟨[message ++ " when accessing " ++ (domain ++ "x") ++
                  ". Retrying in 0.1 seconds..."], 1, none⟩) ∧
    (scrape (fun _ => .response 429 .fail) ["x", "y"]
        = scrape (fun _ => .response 429 .fail) ["y"]) ∧
    (scrape_tasks ["x", "y"] = "x" :: scrape_tasks ["y"]) :=
  C8_transient_result_absent (fun _ => .response 429 .fail) "x" ["y"]
    429 .fail rfl (Or.inl rfl)

/-! ### Claim C9 -/

/-- If every page of the batch got an HTTP response and no extraction was
interrupted, every task's await succeeds and `scrape` returns the
collected non-`None` `process` values. -/
theorem scrape_ok_of_responses (fetch : String → FetchOutcome) :
    ∀ pages : List String,
      (∀ q ∈ pages, ∃ code ext,
          fetch (domain ++ q) = .response code ext ∧
          ¬(code = 200 ∧ ext = .interrupt)) →
      scrape fetch pages = .ok (pages.filterMap (fun q =>
          match request fetch q with
          | .ok out => out.result
          | .error _ => none)) := by
  intro pages
  induction pages with
  | nil => intro _; rfl
  | cons q rest ih =>
      intro hall
      obtain ⟨code, ext, hfq, hni⟩ := hall q (List.mem_cons_self q rest)
      have hreq : ∃ out, request fetch q = .ok out := by
        rw [request_eq_of_response fetch q code ext hfq]
        by_cases h200 : code = 200
        · subst h200
          cases ext with
          | ok a b => exact ⟨_, rfl⟩
          | fail => exact ⟨_, rfl⟩
          | interrupt => exact absurd ⟨rfl, rfl⟩ hni
        · unfold process
          rw [if_neg h200]
          cases hlk : status_messages.lookup code with
          | some m => exact ⟨_, rfl⟩
          | none => exact ⟨_, rfl⟩
      obtain ⟨out, hreq⟩ := hreq
      have htail := ih (fun x hx => hall x (List.mem_cons_of_mem q hx))
      simp only [scrape, htail, hreq, List.filterMap_cons]
      cases out.result <;> rfl

/-- A transport-layer exception on any page of the batch makes `scrape`
re-raise it: the batch never returns a value. -/
theorem scrape_aborts_of_netfail (fetch : String → FetchOutcome)
    (p : String) :
    ∀ pages : List String, p ∈ pages → fetch (domain ++ p) = .netfail →
      ∀ outs, scrape fetch pages ≠ .ok outs := by
  intro pages
  induction pages with
  | nil =>
      intro hp
      exact absurd hp (List.not_mem_nil p)
  | cons q rest ih =>
      intro hp hnet outs hok
      rcases List.mem_cons.mp hp with rfl | hpr
      · have hbad : request fetch p = .error .exn := by
          unfold request
          rw [hnet]
        rw [scrape, hbad] at hok
        exact Except.noConfusion hok
      · cases hq : request fetch q with
        | error e =>
            rw [scrape, hq] at hok
            exact Except.noConfusion hok
        | ok out =>
            rw [scrape, hq] at hok
            cases hs : scrape fetch rest with
            | error e =>
                rw [hs] at hok
                exact Except.noConfusion hok
            | ok outs2 =>
                exact ih hpr hnet outs2 hs

/-- C9 (amended): a failure local to a single fetched page in the form of
a non-200 status or of an exception raised during extraction (other than
an operator interrupt) never aborts the batch — whenever every page got a
response and no extraction was interrupted, `scrape` completes and
returns the outputs of the successfully processed pages; but an exception
raised while fetching (at the transport layer) is re-raised by the task
loop and does abort the whole batch. -/
theorem C9_local_failures_vs_fetch_exceptions
    (fetch : String → FetchOutcome) (pages : List String) (p : String) :
    ((∀ q ∈ pages, ∃ code ext,
        fetch (domain ++ q) = .response code ext ∧
        ¬(code = 200 ∧ ext = .interrupt)) →
      scrape fetch pages = .ok (pages.filterMap (fun q =>
          match request fetch q with
          | .ok out => out.result
          | .error _ => none))) ∧
    ((p ∈ pages ∧ fetch (domain ++ p) = .netfail) →
      ∀ outs, scrape fetch pages ≠ .ok outs) :=
  ⟨scrape_ok_of_responses fetch pages,
   fun hc => scrape_aborts_of_netfail fetch p pages hc.1 hc.2⟩

/-- C9 counterexample: in a two-page batch where fetching page "a" raises
an ordinary (non-interrupt) exception and page "b" succeeds, `scrape`
re-raises the exception and aborts instead of returning page "b"'s
aggregated result. -/
theorem C9_counterexample :
    scrape (fun u => if u = domain ++ "a" then .netfail
                     else .response 200 (.ok ["l"] [("track", "h")]))
        ["a", "b"] = .error .exn := by
  rfl

/-! ### Claim C10 -/

/-- C10: on an Entity Queue state whose oldest stored row was enqueued via
`extend` — its slug column holds the unencoded category value — `get`
raises an uncaught lookup error (`KeyError`) instead of returning the
item, because `sample` translates the stored value through the
integer-keyed inverse mapping; on a state whose oldest row was enqueued
via `put` — its slug column holds the integer code of a category name —
`get` returns normally with the decoded item. -/
theorem C10_get_raises_for_extend_items (q : diskqueue) (i : Nat)
    (s h : String) (rest : List EntityRow) (block : Bool)
    (q2 : diskqueue) (i2 c : Nat) (name h2 : String)
    (rest2 : List EntityRow)
    (hq : q.rows = ⟨i, .raw s, h⟩ :: rest)
    (hq2 : q2.rows = ⟨i2, .code c, h2⟩ :: rest2)
    (hc : SLUG_MAPPING.lookup name = some c) :
    (q.get block true = some (.error ())) ∧
    (q2.get block true
        = some (.ok (some (name, h2),
            ⟨edeleteId q2.rows i2, q2.length - 1⟩))) := by
  constructor
  · simp [diskqueue.get, hq, decodeSlug]
  · simp [diskqueue.get, hq2, decodeSlug, slug_lookup_inverse hc]

/-- C10 witness: `get` raises on the queue whose single item was enqueued
via `extend` (stored slug `"track"`) and returns normally on the queue
whose single item was enqueued via `put` (stored slug code 0). -/
theorem C10_witness :
    ((diskqueue.openFile [⟨1, .raw "track", "x"⟩]).get true true
        = some (.error ())) ∧
    ((diskqueue.openFile [⟨1, .code 0, "y"⟩]).get true true
        = some (.ok (some ("track", "y"),
            ⟨edeleteId (diskqueue.openFile [⟨1, .code 0, "y"⟩]).rows 1,
             (diskqueue.openFile [⟨1, .code 0, "y"⟩]).length - 1⟩))) :=
  C10_get_raises_for_extend_items
    (diskqueue.openFile [⟨1, .raw "track", "x"⟩]) 1 "track" "x" [] true
    (diskqueue.openFile [⟨1, .code 0, "y"⟩]) 1 0 "track" "y" [] rfl rfl rfl

end Spotify
